import Mathlib

/-!
Shallow embedding of the safety-and-audit control layer and the rate-limited
HTTP client of the jira-mcp server.

The definitions below are translated from the TypeScript sources:
* `src/utils/audit.ts` (confirmation gating, dry-run flag, audit logging),
* `src/utils/logger.ts` (log-context sanitization),
* `src/utils/errors.ts` (error taxonomy, message extraction),
* `src/utils/rate-limiter.ts` (token-bucket rate limiter),
* `src/jira/client.ts` (HTTP request retry loop),
* `src/tools/consolidated/jira-issues.ts` (handler fragment for create).

JavaScript numbers are modelled as rationals (`ℚ`), JS `undefined` or
optional values as `Option`, JS objects and JSON values as an inductive
`Json` type, and module-level mutable state as explicit state records.
-/

/-- JSON-ish value type modelling JavaScript values that flow through the
audit/logging layer (`Record<string, unknown>` inputs, parsed response
bodies).  Objects are association lists in insertion order. -/
inductive Json where
  | null : Json
  | bool : Bool → Json
  | num : Int → Json
  | str : String → Json
  | arr : List Json → Json
  | obj : List (String × Json) → Json

/-- Substring test on character lists: JS `String.prototype.includes`. -/
def listContainsSub : List Char → List Char → Bool
  | [], pat => pat.isEmpty
  | c :: rest, pat => pat.isPrefixOf (c :: rest) || listContainsSub rest pat

/-- JS `s.includes(pat)`. -/
def strIncludes (s pat : String) : Bool :=
  listContainsSub s.toList pat.toList

/-- JS `s.toLowerCase()` restricted to the character level (the keys compared
in this code are ASCII identifiers, where JS and ASCII lower-casing agree);
kept as a character list so it composes with `listContainsSub`. -/
def lowerChars (s : String) : List Char :=
  s.toList.map Char.toLower

/-- Auditable actions (`AuditAction` in `src/utils/audit.ts`). -/
inductive AuditAction where
  | create | update | delete | transition | assign | link | unlink | move
deriving DecidableEq

/-- String name of an action, as interpolated into messages. -/
def AuditAction.name : AuditAction → String
  | .create => "create"
  | .update => "update"
  | .delete => "delete"
  | .transition => "transition"
  | .assign => "assign"
  | .link => "link"
  | .unlink => "unlink"
  | .move => "move"

/-- Auditable resources (`AuditResource` in `src/utils/audit.ts`). -/
inductive AuditResource where
  | issue | comment | worklog | sprint | version | link | remoteLink
deriving DecidableEq

/-- Result of an audited operation. -/
inductive AuditResult where
  | success | failure | dryRun
deriving DecidableEq

/-- Audit configuration (`AuditConfig` in `src/utils/audit.ts`). -/
structure AuditConfig where
  enabled : Bool
  logToConsole : Bool
  logToFile : Bool
  logFilePath : String
  requireConfirmation : Bool
  confirmationRequired : List AuditAction
deriving DecidableEq

/-- The `defaultConfig` constant of `src/utils/audit.ts`. -/
def defaultConfig : AuditConfig :=
  { enabled := true
    logToConsole := true
    logToFile := true
    logFilePath := "./jira-audit.log"
    requireConfirmation := true
    confirmationRequired := [.delete, .update] }

/-- `requiresConfirmation` from `src/utils/audit.ts`:
`config.requireConfirmation && config.confirmationRequired.includes(action)`. -/
def requiresConfirmation (config : AuditConfig) (action : AuditAction) : Bool :=
  config.requireConfirmation && config.confirmationRequired.contains action

/-- Result value of `validateConfirmation`. -/
structure ConfirmationResult where
  valid : Bool
  message : Option String
deriving DecidableEq

/-- `validateConfirmation(action, confirmed?)` from `src/utils/audit.ts`.
`confirmed` is `boolean | undefined`; JS `!confirmed` is true exactly when
`confirmed` is `undefined` or `false`.  `dryRunMode` is the module-level
global dry-run flag, passed explicitly here. -/
def validateConfirmation (config : AuditConfig) (dryRunMode : Bool)
    (action : AuditAction) (confirmed : Option Bool) : ConfirmationResult :=
  if !requiresConfirmation config action then
    { valid := true, message := none }
  else if dryRunMode then
    { valid := true, message := none }
  else if !(confirmed.getD false) then
    { valid := false
      message := some ("Action \x27" ++ action.name ++
        "\x27 requires explicit confirmation. Set \x27confirm: true\x27 to proceed.") }
  else
    { valid := true, message := none }

/-- The sensitive-key name fragments of `sanitizeForLog` in
`src/utils/audit.ts`. -/
def sensitiveKeys : List String :=
  ["password", "token", "secret", "key", "credential"]

/-- `sensitiveKeys.some((k) => key.toLowerCase().includes(k))`. -/
def isSensitiveKey (key : String) : Bool :=
  sensitiveKeys.any (fun k => listContainsSub (lowerChars key) k.toList)

/-- `sanitizeForLog` from `src/utils/audit.ts`: redacts values under
sensitive key names and truncates string values over 500 characters.
`Object.entries` iterates the (unique-keyed) fields in insertion order and
the result object is rebuilt in the same order, hence `List.map`. -/
def sanitizeForLog (input : List (String × Json)) : List (String × Json) :=
  input.map fun kv =>
    if isSensitiveKey kv.1 then (kv.1, Json.str "[REDACTED]")
    else
      match kv.2 with
      | Json.str s =>
          if s.length > 500 then (kv.1, Json.str (s.take 500 ++ "... [truncated]"))
          else (kv.1, Json.str s)
      | v => (kv.1, v)

/-- The `SENSITIVE_KEYS` list of `src/utils/logger.ts`. -/
def loggerSensitiveKeys : List String :=
  ["apiToken", "api_token", "password", "secret", "authorization", "token",
   "key", "credential"]

/-- `SENSITIVE_KEYS.some((k) => key.toLowerCase().includes(k))` from
`Logger.sanitize`.  Note the listed fragments are compared verbatim against
the lower-cased key, exactly as in the source (so the mixed-case fragment
`apiToken` never matches, but the fragment `token` does). -/
def loggerIsSensitive (key : String) : Bool :=
  loggerSensitiveKeys.any (fun k => listContainsSub (lowerChars key) k.toList)

mutual
/-- `Logger.sanitize` from `src/utils/logger.ts`, acting on the fields of an
object: sensitive keys are redacted; object-typed values (which in JS
includes arrays, re-entered via `Object.entries`) are sanitized
recursively; all other values pass through. -/
def loggerSanitizeFields : List (String × Json) → List (String × Json)
  | [] => []
  | (k, v) :: rest =>
      (if loggerIsSensitive k then (k, Json.str "[REDACTED]")
       else (k, loggerSanitizeVal v)) :: loggerSanitizeFields rest

/-- Value-level part of `Logger.sanitize`: recurse into objects; an array
value satisfies `typeof value === \x27object\x27` and is rebuilt as an
object keyed by decimal indices (JS `Object.entries` on an array); index
keys are decimal digit strings and never match the sensitivity heuristic. -/
def loggerSanitizeVal : Json → Json
  | Json.obj fields => Json.obj (loggerSanitizeFields fields)
  | Json.arr xs => Json.obj (loggerSanitizeArr 0 xs)
  | v => v

/-- `Object.entries` of an array: decimal index keys with sanitized values. -/
def loggerSanitizeArr : Nat → List Json → List (String × Json)
  | _, [] => []
  | i, x :: xs => (toString i, loggerSanitizeVal x) :: loggerSanitizeArr (i + 1) xs
end

/-- A full audit log entry (`AuditEntry` in `src/utils/audit.ts`). -/
structure AuditEntry where
  timestamp : String
  action : AuditAction
  resource : AuditResource
  resourceId : Option String
  user : Option String
  input : List (String × Json)
  result : AuditResult
  error : Option String
  dryRun : Bool

/-- The argument of `logAudit`: `Omit<AuditEntry, "timestamp" | "dryRun">`. -/
structure AuditInput where
  action : AuditAction
  resource : AuditResource
  resourceId : Option String
  user : Option String
  input : List (String × Json)
  result : AuditResult
  error : Option String

/-- JSON rendering of an `AuditResult`, as it appears in log context. -/
def AuditResult.toJson : AuditResult → Json
  | .success => Json.str "success"
  | .failure => Json.str "failure"
  | .dryRun => Json.str "dry-run"

/-- Module-level mutable state of `src/utils/audit.ts`: the configuration,
the global dry-run flag, the in-memory session log, plus the two log sinks.
The file sink records the entries whose JSON serialization
(`JSON.stringify(entry)`) is appended as a line to the audit file; the
console sink records the structured context passed to `logger.info`
after both sanitization passes (`sanitizeForLog` in the `logAudit` call and
`Logger.sanitize` inside `Logger.format`; the accompanying message text
carries only the action, resource and resource id, never input values). -/
structure AuditState where
  config : AuditConfig
  dryRunMode : Bool
  sessionLog : List AuditEntry
  fileLog : List AuditEntry
  consoleLog : List (List (String × Json))

/-- Fresh audit module state: `config = defaultConfig`, `dryRunMode = false`,
empty session log and sinks. -/
def initialAuditState : AuditState :=
  { config := defaultConfig
    dryRunMode := false
    sessionLog := []
    fileLog := []
    consoleLog := [] }

/-- `setDryRunMode(enabled)` from `src/utils/audit.ts`. -/
def setDryRunMode (enabled : Bool) (s : AuditState) : AuditState :=
  { s with dryRunMode := enabled }

/-- `isDryRunMode()` from `src/utils/audit.ts`. -/
def isDryRunMode (s : AuditState) : Bool :=
  s.dryRunMode

/-- `logAudit(entry)` from `src/utils/audit.ts`.  `now` stands for
`new Date().toISOString()`.  The full entry stamps the timestamp and the
current global dry-run flag, is pushed onto the session log, and is then
emitted to the console and/or file sinks according to the configuration.
Only the console path sanitizes the input; the session log and the file
line store the entry as constructed. -/
def logAudit (now : String) (entry : AuditInput) (s : AuditState) : AuditState :=
  if !s.config.enabled then s
  else
    let fullEntry : AuditEntry :=
      { timestamp := now
        action := entry.action
        resource := entry.resource
        resourceId := entry.resourceId
        user := entry.user
        input := entry.input
        result := entry.result
        error := entry.error
        dryRun := s.dryRunMode }
    let s1 := { s with sessionLog := s.sessionLog ++ [fullEntry] }
    let s2 :=
      if s.config.logToConsole then
        { s1 with consoleLog := s1.consoleLog ++
            [loggerSanitizeFields
              [("result", entry.result.toJson),
               ("input", Json.obj (sanitizeForLog entry.input))]] }
      else s1
    if s.config.logToFile then
      { s2 with fileLog := s2.fileLog ++ [fullEntry] }
    else s2

/-- `getSessionLog()` at the value level: returns the current entries. -/
def getSessionLogEntries (s : AuditState) : List AuditEntry :=
  s.sessionLog

/-- `clearSessionLog()` at the value level: `sessionLog.length = 0` empties
the in-memory list; the file sink is not touched. -/
def clearSessionLogState (s : AuditState) : AuditState :=
  { s with sessionLog := [] }

/-- Reference-level model of the session array for aliasing claims: JS
arrays are cells on a heap, variables hold references (cell indices), and
the module variable `sessionLog` holds one fixed reference. -/
structure SessionHeap where
  cells : List (List AuditEntry)
  sessionRef : Nat

/-- Dereference an array cell. -/
def SessionHeap.read (h : SessionHeap) (r : Nat) : List AuditEntry :=
  h.cells.getD r []

/-- Overwrite an array cell in place (models JS array mutation through any
reference to the cell). -/
def SessionHeap.write (h : SessionHeap) (r : Nat) (xs : List AuditEntry) :
    SessionHeap :=
  { h with cells := h.cells.set r xs }

/-- `sessionLog.push(fullEntry)` inside `logAudit`: in-place append through
the module-held reference. -/
def SessionHeap.pushEntry (h : SessionHeap) (e : AuditEntry) : SessionHeap :=
  h.write h.sessionRef (h.read h.sessionRef ++ [e])

/-- `getSessionLog()` from `src/utils/audit.ts`: `return [...sessionLog]`
allocates a fresh array holding a copy of the current entries and returns a
reference to the fresh cell. -/
def SessionHeap.getSessionLog (h : SessionHeap) : SessionHeap × Nat :=
  ({ h with cells := h.cells ++ [h.read h.sessionRef] }, h.cells.length)

/-- `clearSessionLog()` from `src/utils/audit.ts`: `sessionLog.length = 0`
truncates the module-held array in place. -/
def SessionHeap.clearSessionLog (h : SessionHeap) : SessionHeap :=
  h.write h.sessionRef []

/-- Token-bucket rate limiter state (`RateLimiter` in
`src/utils/rate-limiter.ts`); JS numbers modelled as rationals, timestamps
(`Date.now()` milliseconds) passed explicitly. -/
structure RateLimiter where
  maxRequests : ℚ
  windowMs : ℚ
  tokens : ℚ
  lastRefill : ℚ
deriving DecidableEq

/-- The constructor: `tokens = maxRequests`, `lastRefill = Date.now()`. -/
def RateLimiter.init (maxRequests windowMs now : ℚ) : RateLimiter :=
  { maxRequests := maxRequests
    windowMs := windowMs
    tokens := maxRequests
    lastRefill := now }

/-- `refill()`: `tokensToAdd = (elapsed / windowMs) * maxRequests`;
`tokens = min(maxRequests, tokens + tokensToAdd)`; `lastRefill = now`. -/
def RateLimiter.refill (rl : RateLimiter) (now : ℚ) : RateLimiter :=
  let elapsed := now - rl.lastRefill
  let tokensToAdd := elapsed / rl.windowMs * rl.maxRequests
  { rl with
    tokens := min rl.maxRequests (rl.tokens + tokensToAdd)
    lastRefill := now }

/-- Outcome of `acquire()`: normal return, or a thrown `RateLimitError`
carrying its computed `retryAfter` milliseconds. -/
inductive AcquireOutcome where
  | success
  | rateLimited (retryAfter : ℤ)
deriving DecidableEq

/-- `acquire()` from `src/utils/rate-limiter.ts`: refill; if `tokens < 1`
throw `RateLimitError` with
`retryAfter = Math.ceil(((1 - tokens) / maxRequests) * windowMs)`;
otherwise `tokens -= 1`. -/
def RateLimiter.acquire (rl : RateLimiter) (now : ℚ) :
    RateLimiter × AcquireOutcome :=
  let r := rl.refill now
  if r.tokens < 1 then
    (r, AcquireOutcome.rateLimited ⌈(1 - r.tokens) / r.maxRequests * r.windowMs⌉)
  else
    ({ r with tokens := r.tokens - 1 }, AcquireOutcome.success)

/-- `canAcquire()`: refill, then `tokens >= 1` without consuming. -/
def RateLimiter.canAcquire (rl : RateLimiter) (now : ℚ) : RateLimiter × Bool :=
  let r := rl.refill now
  (r, decide (1 ≤ r.tokens))

/-- `getRemainingTokens()`: refill, then `Math.floor(tokens)`. -/
def RateLimiter.getRemainingTokens (rl : RateLimiter) (now : ℚ) :
    RateLimiter × ℤ :=
  let r := rl.refill now
  (r, ⌊r.tokens⌋)

/-- `getTimeUntilNextToken()`: refill; 0 if a token is available, else the
same ceiling formula as `acquire()`. -/
def RateLimiter.getTimeUntilNextToken (rl : RateLimiter) (now : ℚ) :
    RateLimiter × ℤ :=
  let r := rl.refill now
  if 1 ≤ r.tokens then (r, 0)
  else (r, ⌈(1 - r.tokens) / r.maxRequests * r.windowMs⌉)

/-- The four non-suspending limiter operations, for traces. -/
inductive RLOp where
  | acq | canAcq | remaining | timeUntilNext
deriving DecidableEq

/-- State effect of one operation invoked at time `now`. -/
def RateLimiter.applyOp (rl : RateLimiter) (op : RLOp) (now : ℚ) : RateLimiter :=
  match op with
  | RLOp.acq => (rl.acquire now).1
  | RLOp.canAcq => (rl.canAcquire now).1
  | RLOp.remaining => (rl.getRemainingTokens now).1
  | RLOp.timeUntilNext => (rl.getTimeUntilNextToken now).1

/-- Run a timed trace of operations from a starting state. -/
def RateLimiter.runOps (rl : RateLimiter) : List (RLOp × ℚ) → RateLimiter
  | [] => rl
  | (op, now) :: rest => (rl.applyOp op now).runOps rest

/-- Times in a trace are nondecreasing and start no earlier than `t0`
(`Date.now()` is nondecreasing across the successive calls). -/
def TimesMono (t0 : ℚ) : List (RLOp × ℚ) → Prop
  | [] => True
  | (_, now) :: rest => t0 ≤ now ∧ TimesMono now rest

/-- The error classes of `src/utils/errors.ts` that `JiraClient.request`
can throw or catch: `AuthenticationError`, `JiraApiError` (message, HTTP
status, response body), and any other `Error` (network failures etc.). -/
inductive JsError where
  | authenticationError (message : String)
  | jiraApiError (message : String) (statusCode : Nat) (responseBody : Option Json)
  | genericError (message : String)

/-- First-match association-list lookup: JS property access `obj[k]` on an
object with unique keys. -/
def lookupField (fields : List (String × Json)) (key : String) : Option Json :=
  (fields.find? (fun kv => kv.1 == key)).map (fun kv => kv.2)

mutual
/-- Element coercion of JS `Array.prototype.join`: `null`/`undefined`
render empty, strings verbatim, numbers and booleans via `String()`,
nested arrays join with a comma, plain objects render as the standard
object tag string. -/
def jsJoinElem : Json → String
  | Json.null => ""
  | Json.bool true => "true"
  | Json.bool false => "false"
  | Json.num n => toString n
  | Json.str s => s
  | Json.arr xs => jsJoinList "," xs
  | Json.obj _ => "[object Object]"

/-- `xs.join(sep)` on a JS array. -/
def jsJoinList (sep : String) : List Json → String
  | [] => ""
  | [x] => jsJoinElem x
  | x :: y :: rest => jsJoinElem x ++ sep ++ jsJoinList sep (y :: rest)
end

/-- `JiraApiError.extractMessage(body, fallback)` from `src/utils/errors.ts`:
a joined `errorMessages` array wins, then a string `message` field, then a
string `error` field, then the HTTP status text.  A non-array
`errorMessages` (including `null`) and non-string `message`/`error` fields
fall through, exactly as the `typeof`/`Array.isArray` guards do. -/
def extractMessage (body : Json) (fallback : String) : String :=
  match body with
  | Json.obj fields =>
    match lookupField fields "errorMessages" with
    | some (Json.arr xs) => jsJoinList ", " xs
    | _ =>
      match lookupField fields "message" with
      | some (Json.str m) => m
      | _ =>
        match lookupField fields "error" with
        | some (Json.str e) => e
        | _ => fallback
  | _ => fallback

/-- An HTTP response as observed by the retry loop: status, status text,
the two headers it reads, and the parsed JSON body. -/
structure HttpResponse where
  status : Nat
  statusText : String
  retryAfterHeader : Option String
  contentLength : Option String
  body : Json

/-- `JiraApiError.fromResponse(response)`: extract the message from the
parsed body with the status text as fallback; keep status and body. -/
def fromResponse (r : HttpResponse) : JsError :=
  JsError.jiraApiError (extractMessage r.body r.statusText) r.status (some r.body)

/-- What one `fetch` call yields: a response, or a rejected promise
(network-level failure). -/
inductive AttemptResult where
  | response (r : HttpResponse)
  | networkError (message : String)

/-- Leading decimal digits of a character list. -/
def leadingDigits : List Char → List Char
  | [] => []
  | c :: rest => if c.isDigit then c :: leadingDigits rest else []

/-- Numeric value of a digit list. -/
def digitsVal (cs : List Char) : Nat :=
  cs.foldl (fun acc c => acc * 10 + (c.toNat - 48)) 0

/-- JS `parseInt(s, 10)` on the nonnegative inputs that occur here: `none`
models `NaN` (no leading digits). -/
def jsParseIntNat (s : String) : Option Nat :=
  match leadingDigits s.toList with
  | [] => none
  | ds => some (digitsVal ds)

/-- `parseInt(response.headers.get("Retry-After") || "60", 10)`: a missing
or empty header (JS falsy) defaults to the string "60" before parsing. -/
def retryAfterSeconds (header : Option String) : Option Nat :=
  let h := match header with
    | none => "60"
    | some s => if s.isEmpty then "60" else s
  jsParseIntNat h

/-- How the request loop resolves: the parsed success payload, or a thrown
value — `none` models the JS statement `throw lastError` with `lastError`
still `null`. -/
inductive RequestOutcome where
  | success (data : Json)
  | thrown (error : Option JsError)

/-- Observable result of one `JiraClient.request` call: its resolution, the
number of `fetch` calls issued, and the millisecond durations of the
`setTimeout` suspensions in order. -/
structure RunResult where
  outcome : RequestOutcome
  fetches : Nat
  sleeps : List Nat

/-- The `catch` block of `JiraClient.request`: `lastError = error`; rethrow
immediately for `AuthenticationError` and for `JiraApiError` with status
403 or 404; otherwise sleep the exponential backoff when attempts remain
and fall through to the next iteration (`rest` is the remainder of the
loop run with `lastError = some e`). -/
def isNonRetryable : JsError → Bool
  | JsError.authenticationError _ => true
  | JsError.jiraApiError _ statusCode _ => statusCode == 403 || statusCode == 404
  | JsError.genericError _ => false

/-- Combine the current caught error with the rest of the loop: one fetch
happened in this iteration; a backoff sleep is inserted only when the
attempt counter has room (`canRetry`). -/
def catchStep (e : JsError) (canRetry : Bool) (backoffDelay : Nat)
    (rest : RunResult) : RunResult :=
  if isNonRetryable e then
    { outcome := RequestOutcome.thrown (some e), fetches := 1, sleeps := [] }
  else if canRetry then
    { outcome := rest.outcome
      fetches := rest.fetches + 1
      sleeps := backoffDelay :: rest.sleeps }
  else
    { outcome := rest.outcome
      fetches := rest.fetches + 1
      sleeps := rest.sleeps }

/-- The `for (let attempt = 1; attempt <= maxRetries; attempt++)` body of
`JiraClient.request` (`src/jira/client.ts`).  `fuel` is the number of loop
iterations still allowed (the loop exits and throws `lastError` when it
reaches 0); `schedule n` is what the `n`-th `fetch` (0-based) yields.  A
429 response reads `Retry-After` (default 60 seconds), sleeps that many
seconds, and executes `continue` — which, in a JS `for` loop, still runs
the `attempt++` update, so the iteration is consumed.  Status 401/403/404
and other non-2xx statuses throw into the `catch` block (`catchStep`);
204 or a zero `Content-Length` resolve to an empty object; any other 2xx
resolves to the parsed body. -/
def runRequestAux (maxRetries retryDelay : Nat) (schedule : Nat → AttemptResult) :
    Nat → Option JsError → RunResult
  | 0, lastError => { outcome := RequestOutcome.thrown lastError, fetches := 0, sleeps := [] }
  | fuel + 1, lastError =>
    let attemptIdx := maxRetries - (fuel + 1)
    match schedule attemptIdx with
    | AttemptResult.networkError msg =>
        catchStep (JsError.genericError msg) (decide (0 < fuel))
          (retryDelay * 2 ^ attemptIdx)
          (runRequestAux maxRetries retryDelay schedule fuel
            (some (JsError.genericError msg)))
    | AttemptResult.response r =>
        if r.status = 429 then
          let sleepMs := ((retryAfterSeconds r.retryAfterHeader).getD 0) * 1000
          let rest := runRequestAux maxRetries retryDelay schedule fuel lastError
          { outcome := rest.outcome
            fetches := rest.fetches + 1
            sleeps := sleepMs :: rest.sleeps }
        else if r.status = 401 then
          catchStep (JsError.authenticationError
              "Invalid Jira credentials. Please check your email and API token.")
            (decide (0 < fuel)) (retryDelay * 2 ^ attemptIdx)
            (runRequestAux maxRetries retryDelay schedule fuel
              (some (JsError.authenticationError
                "Invalid Jira credentials. Please check your email and API token.")))
        else if r.status = 403 then
          catchStep (JsError.jiraApiError "Access forbidden. Check your permissions." 403 none)
            (decide (0 < fuel)) (retryDelay * 2 ^ attemptIdx)
            (runRequestAux maxRetries retryDelay schedule fuel
              (some (JsError.jiraApiError "Access forbidden. Check your permissions." 403 none)))
        else if r.status = 404 then
          catchStep (fromResponse r)
            (decide (0 < fuel)) (retryDelay * 2 ^ attemptIdx)
            (runRequestAux maxRetries retryDelay schedule fuel (some (fromResponse r)))
        else if r.status < 200 ∨ 299 < r.status then
          catchStep (fromResponse r)
            (decide (0 < fuel)) (retryDelay * 2 ^ attemptIdx)
            (runRequestAux maxRetries retryDelay schedule fuel (some (fromResponse r)))
        else if r.status = 204 ∨ r.contentLength = some "0" then
          { outcome := RequestOutcome.success (Json.obj []), fetches := 1, sleeps := [] }
        else
          { outcome := RequestOutcome.success r.body, fetches := 1, sleeps := [] }

/-- One `JiraClient.request` call: `maxRetries = 3`, `retryDelay = 1000`,
`lastError` initially `null`. -/
def runRequest (schedule : Nat → AttemptResult) : RunResult :=
  runRequestAux 3 1000 schedule 3 none

/-- Result of the upstream `createIssue` call, passed in as a parameter
(the network is external to this model). -/
inductive CreateOutcome where
  | created (issueKey : String)
  | failed (message : String)

/-- What the create path of the handler returns to its caller. -/
inductive HandlerResult where
  | confirmationRejected (message : Option String)
  | dryRunPreview
  | issueCreated (issueKey : String)
  | handlerThrew (message : String)

/-- The `create` action path of `handleJiraIssues`
(`src/tools/consolidated/jira-issues.ts`): effective dry-run is
`input.dryRun || isDryRunMode()`; the confirmation gate runs only when not
in effective dry-run (for `create`, `getAuditAction` yields the audit
action `create`); in dry-run the operation is logged with result
`dry-run` and a preview is returned without any upstream call; otherwise
the upstream outcome is logged as `success` (with the new issue key) or
`failure` (with the error message, which is rethrown). -/
def handleIssuesCreate (now : String) (requestDryRun confirm : Bool)
    (createInput : List (String × Json)) (upstream : CreateOutcome)
    (s : AuditState) : AuditState × HandlerResult :=
  let isDryRun := requestDryRun || isDryRunMode s
  let confirmation := validateConfirmation s.config s.dryRunMode
    AuditAction.create (some confirm)
  if !isDryRun && !confirmation.valid then
    (s, HandlerResult.confirmationRejected confirmation.message)
  else if isDryRun then
    (logAudit now
      { action := AuditAction.create, resource := AuditResource.issue
        resourceId := none, user := none, input := createInput
        result := AuditResult.dryRun, error := none } s,
     HandlerResult.dryRunPreview)
  else
    match upstream with
    | CreateOutcome.created k =>
        (logAudit now
          { action := AuditAction.create, resource := AuditResource.issue
            resourceId := some k, user := none, input := createInput
            result := AuditResult.success, error := none } s,
         HandlerResult.issueCreated k)
    | CreateOutcome.failed m =>
        (logAudit now
          { action := AuditAction.create, resource := AuditResource.issue
            resourceId := none, user := none, input := createInput
            result := AuditResult.failure, error := some m } s,
         HandlerResult.handlerThrew m)

/-- The full entry `logAudit` constructs from its argument at time `now` in
state `s` (timestamp and current global dry-run flag stamped on). -/
def fullEntryOf (now : String) (e : AuditInput) (s : AuditState) : AuditEntry :=
  { timestamp := now
    action := e.action
    resource := e.resource
    resourceId := e.resourceId
    user := e.user
    input := e.input
    result := e.result
    error := e.error
    dryRun := s.dryRunMode }

/-- A `logAudit` argument whose input map holds a secret under the key
`apiToken` (matches the sensitive-name heuristic via the fragment
`token`). -/
def secretEntry : AuditInput :=
  { action := AuditAction.update
    resource := AuditResource.issue
    resourceId := some "PROJ-123"
    user := none
    input := [("apiToken", Json.str "SECRETVAL")]
    result := AuditResult.success
    error := none }

/-- State invariant of the token bucket: fixed configuration `C`/`W` and a
token count within `[0, C]`. -/
def RLInv (C W : ℚ) (rl : RateLimiter) : Prop :=
  rl.maxRequests = C ∧ rl.windowMs = W ∧ 0 ≤ rl.tokens ∧ rl.tokens ≤ C

/-- The 404 response of end-to-end scenario 4. -/
def resp404 : HttpResponse :=
  { status := 404
    statusText := "Not Found"
    retryAfterHeader := none
    contentLength := none
    body := Json.obj [("errorMessages", Json.arr [Json.str "Issue does not exist"])] }

/-- A 401 response. -/
def resp401 : HttpResponse :=
  { status := 401
    statusText := "Unauthorized"
    retryAfterHeader := none
    contentLength := none
    body := Json.obj [] }

/-- A 429 response carrying a `Retry-After` of 7 seconds. -/
def resp429 : HttpResponse :=
  { status := 429
    statusText := "Too Many Requests"
    retryAfterHeader := some "7"
    contentLength := none
    body := Json.obj [] }

/-- A plain 200 response with a JSON body. -/
def respOk : HttpResponse :=
  { status := 200
    statusText := "OK"
    retryAfterHeader := none
    contentLength := none
    body := Json.obj [("id", Json.str "10001")] }

/-- A fetch schedule delivering three 429 responses and then a 200: the
input on which the unbounded-429-retry reading and the actual bounded loop
disagree. -/
def sched429x3ThenOk : Nat → AttemptResult := fun n =>
  if n < 3 then AttemptResult.response resp429 else AttemptResult.response respOk

/-- A one-cell heap whose session array holds one previously logged
entry, for concrete isolation checks. -/
def exampleHeap : SessionHeap :=
  { cells := [[fullEntryOf "T0" secretEntry initialAuditState]]
    sessionRef := 0 }

/-- A substring of the right part is a substring of the concatenation. -/
theorem listContainsSub_append_right (l1 l2 pat : List Char)
    (h : listContainsSub l2 pat = true) :
    listContainsSub (l1 ++ l2) pat = true := by
  induction l1 with
  | nil => simpa using h
  | cons c cs ih => simp [listContainsSub, ih]

/-- Any invalid confirmation result carries the fixed explicit-confirmation
message for its action. -/
theorem validateConfirmation_invalid_message (config : AuditConfig)
    (dryRunMode : Bool) (action : AuditAction) (confirmed : Option Bool)
    (h : (validateConfirmation config dryRunMode action confirmed).valid = false) :
    (validateConfirmation config dryRunMode action confirmed).message =
      some ("Action \x27" ++ action.name ++
        "\x27 requires explicit confirmation. Set \x27confirm: true\x27 to proceed.") := by
  by_cases h1 : (!requiresConfirmation config action) = true
  · simp [validateConfirmation, h1] at h
  · by_cases h2 : dryRunMode = true
    · simp [validateConfirmation, h1, h2] at h
    · by_cases h3 : (!confirmed.getD false) = true
      · simp [validateConfirmation, h1, h2, h3]
      · simp [validateConfirmation, h1, h2, h3] at h

/-- The fixed message contains the advertised substring. -/
theorem confirmationMessage_includes (action : AuditAction) :
    strIncludes ("Action \x27" ++ action.name ++
        "\x27 requires explicit confirmation. Set \x27confirm: true\x27 to proceed.")
      "requires explicit confirmation" = true := by
  unfold strIncludes
  have h : ("Action \x27" ++ action.name ++
      "\x27 requires explicit confirmation. Set \x27confirm: true\x27 to proceed.").toList =
      ("Action \x27" ++ action.name).toList ++
      "\x27 requires explicit confirmation. Set \x27confirm: true\x27 to proceed.".toList := by
    simp [String.toList, String.data_append]
  rw [h]
  exact listContainsSub_append_right _ _ _ (by decide)

/-- C1: confirmation gating truth table.  Under the default configuration
with the global dry-run flag off, `validateConfirmation` is invalid for
`delete` without confirmation, valid for `delete` with confirmation, valid
for `create` without confirmation (create is not in the default
confirmation-required set), invalid for `update` with `confirmed`
undefined; with the global dry-run flag on, `delete` is valid regardless
of the confirmed argument; and every invalid result carries a message
containing the substring "requires explicit confirmation". -/
theorem confirmation_gating_truth_table :
    (validateConfirmation defaultConfig false AuditAction.delete (some false)).valid = false ∧
    (validateConfirmation defaultConfig false AuditAction.delete (some true)).valid = true ∧
    (validateConfirmation defaultConfig false AuditAction.create (some false)).valid = true ∧
    (∀ confirmed : Option Bool,
      (validateConfirmation defaultConfig true AuditAction.delete confirmed).valid = true) ∧
    (validateConfirmation defaultConfig false AuditAction.update none).valid = false ∧
    (∀ (config : AuditConfig) (dryRunMode : Bool) (action : AuditAction)
        (confirmed : Option Bool),
      (validateConfirmation config dryRunMode action confirmed).valid = false →
      ∃ msg, (validateConfirmation config dryRunMode action confirmed).message = some msg ∧
        strIncludes msg "requires explicit confirmation" = true) := by
  refine ⟨by decide, by decide, by decide, ?_, by decide, ?_⟩
  · intro confirmed
    rfl
  · intro config dryRunMode action confirmed h
    exact ⟨_, validateConfirmation_invalid_message config dryRunMode action confirmed h,
      confirmationMessage_includes action⟩

/-- C1 witness: the truth table applied at the concrete `update`/undefined
input of end-to-end scenario 2, discharging the invalidity hypothesis. -/
theorem confirmation_gating_truth_table_witness :
    (validateConfirmation defaultConfig false AuditAction.update none).valid = false ∧
    ∃ msg, (validateConfirmation defaultConfig false AuditAction.update none).message = some msg ∧
      strIncludes msg "requires explicit confirmation" = true :=
  ⟨by decide,
    confirmation_gating_truth_table.2.2.2.2.2 defaultConfig false AuditAction.update none
      (by decide)⟩

/-- C2 counterexample: logging an entry whose input holds a secret under
the key `apiToken` stores the ORIGINAL value, unredacted, in both the
in-memory session list entry and the entry serialized to the log file —
contradicting the claim that every stored representation carries the
redaction marker in place of the original value. -/
theorem redaction_everywhere_counterexample :
    (logAudit "T0" secretEntry initialAuditState).sessionLog =
      [fullEntryOf "T0" secretEntry initialAuditState] ∧
    (logAudit "T0" secretEntry initialAuditState).fileLog =
      [fullEntryOf "T0" secretEntry initialAuditState] ∧
    lookupField (fullEntryOf "T0" secretEntry initialAuditState).input "apiToken" =
      some (Json.str "SECRETVAL") ∧
    "SECRETVAL" ≠ "[REDACTED]" ∧
    isSensitiveKey "apiToken" = true := by
  refine ⟨rfl, rfl, rfl, by decide, by decide⟩

/-- C2 amended: redaction and truncation happen only in the emitted console
representation.  `logAudit` (when enabled with both sinks on) appends the
raw entry to the session list and to the file sink, emits the doubly
sanitized context to the console sink, and `sanitizeForLog` replaces every
sensitive-keyed value with the fixed redaction marker and truncates
over-500-character strings under non-sensitive keys; every key sensitive
for the audit heuristic is also sensitive for the logger pass, so the
console representation never reintroduces the original value. -/
theorem redaction_console_only (now : String) (e : AuditInput) (s : AuditState)
    (hEn : s.config.enabled = true) (hCon : s.config.logToConsole = true)
    (hFile : s.config.logToFile = true) :
    (logAudit now e s).sessionLog = s.sessionLog ++ [fullEntryOf now e s] ∧
    (logAudit now e s).fileLog = s.fileLog ++ [fullEntryOf now e s] ∧
    (logAudit now e s).consoleLog = s.consoleLog ++
      [loggerSanitizeFields
        [("result", e.result.toJson), ("input", Json.obj (sanitizeForLog e.input))]] ∧
    (∀ kv ∈ e.input, isSensitiveKey kv.1 = true →
      (kv.1, Json.str "[REDACTED]") ∈ sanitizeForLog e.input) ∧
    (∀ kv ∈ e.input, ∀ sv : String, kv.2 = Json.str sv →
      isSensitiveKey kv.1 = false → 500 < sv.length →
      (kv.1, Json.str (sv.take 500 ++ "... [truncated]")) ∈ sanitizeForLog e.input) ∧
    (∀ k, isSensitiveKey k = true → loggerIsSensitive k = true) := by
  refine ⟨?_, ?_, ?_, ?_, ?_, ?_⟩
  · simp [logAudit, fullEntryOf, hEn, hCon, hFile]
  · simp [logAudit, fullEntryOf, hEn, hCon, hFile]
  · simp [logAudit, fullEntryOf, hEn, hCon, hFile]
  · intro kv hkv hsens
    refine List.mem_map.mpr ⟨kv, hkv, ?_⟩
    simp [hsens]
  · intro kv hkv sv hsv hsens hlen
    refine List.mem_map.mpr ⟨kv, hkv, ?_⟩
    simp [hsens, hsv, hlen]
  · intro k hk
    simp only [isSensitiveKey, sensitiveKeys, List.any_eq_true] at hk
    obtain ⟨frag, hfrag, hsub⟩ := hk
    simp only [List.mem_cons, List.not_mem_nil, or_false] at hfrag
    simp only [loggerIsSensitive, loggerSensitiveKeys, List.any_eq_true]
    rcases hfrag with h | h | h | h | h <;> subst h <;> exact ⟨_, by decide, hsub⟩

/-- C2 witness: the amended statement applied to the concrete `apiToken`
entry in the initial state, discharging the configuration hypotheses. -/
theorem redaction_console_only_witness :
    initialAuditState.config.enabled = true ∧
    initialAuditState.config.logToConsole = true ∧
    initialAuditState.config.logToFile = true ∧
    (logAudit "T0" secretEntry initialAuditState).consoleLog =
      [loggerSanitizeFields
        [("result", AuditResult.success.toJson),
         ("input", Json.obj (sanitizeForLog secretEntry.input))]] ∧
    ("apiToken", Json.str "[REDACTED]") ∈ sanitizeForLog secretEntry.input := by
  refine ⟨rfl, rfl, rfl, ?_, ?_⟩
  · have h := (redaction_console_only "T0" secretEntry initialAuditState rfl rfl rfl).2.2.1
    simpa [initialAuditState, secretEntry] using h
  · exact (redaction_console_only "T0" secretEntry initialAuditState rfl rfl rfl).2.2.2.1
      ("apiToken", Json.str "SECRETVAL") (by simp [secretEntry]) (by decide)

/-- Entries appended by `logAudit` carry the global dry-run flag of the
state at logging time. -/
theorem logAudit_mem_dryRun (now : String) (e : AuditInput) (s : AuditState) :
    ∀ entry ∈ (logAudit now e s).sessionLog,
      entry ∈ s.sessionLog ∨ entry.dryRun = s.dryRunMode := by
  intro entry hentry
  by_cases hEn : (!s.config.enabled) = true
  · simp [logAudit, hEn] at hentry
    exact Or.inl hentry
  · by_cases hCon : s.config.logToConsole = true <;>
    by_cases hFile : s.config.logToFile = true <;>
    · simp [logAudit, hEn, hCon, hFile] at hentry
      rcases hentry with h | h
      · exact Or.inl h
      · subst h
        exact Or.inr rfl

/-- C4 counterexample: a create request with the per-request `dryRun` flag
set while the global flag is off logs an entry with result `dry-run` whose
`dryRun` field is `false` — not the OR of the global and per-request
flags, which is `true`. -/
theorem dryRun_flag_or_counterexample :
    ((handleIssuesCreate "T0" true false [("summary", Json.str "Test")]
        (CreateOutcome.created "PROJ-1") initialAuditState).1.sessionLog.map
      (fun entry => (entry.result, entry.dryRun))) = [(AuditResult.dryRun, false)] ∧
    (true || initialAuditState.dryRunMode) = true := by
  constructor
  · simp [handleIssuesCreate, isDryRunMode, initialAuditState, defaultConfig,
      validateConfirmation, requiresConfirmation, logAudit]
  · rfl

/-- C4 amended: every audit entry created by `logAudit` has `dryRun` equal
to the GLOBAL dry-run flag alone at the time of logging; the per-request
flag does not enter the field, so an entry logged with result `dry-run`
because the caller set a per-request flag still has `dryRun = false` when
the global flag is off. -/
theorem dryRun_flag_global_only (now : String) (e : AuditInput) (s : AuditState) :
    (∀ entry ∈ (logAudit now e s).sessionLog,
      entry ∈ s.sessionLog ∨ entry.dryRun = s.dryRunMode) ∧
    (∀ (requestDryRun confirm : Bool) (inp : List (String × Json))
        (upstream : CreateOutcome),
      ∀ entry ∈ (handleIssuesCreate now requestDryRun confirm inp upstream s).1.sessionLog,
        entry ∈ s.sessionLog ∨ entry.dryRun = s.dryRunMode) := by
  refine ⟨logAudit_mem_dryRun now e s, ?_⟩
  intro requestDryRun confirm inp upstream entry hentry
  cases upstream <;>
  · unfold handleIssuesCreate at hentry
    dsimp only at hentry
    split at hentry
    · exact Or.inl hentry
    · split at hentry
      · exact logAudit_mem_dryRun now _ s entry hentry
      · exact logAudit_mem_dryRun now _ s entry hentry

/-- C4 witness: the amended statement applied to the concrete dry-run
create scenario of the counterexample, discharging the membership
hypothesis with the logged entry. -/
theorem dryRun_flag_global_only_witness :
    (fullEntryOf "T0"
        { action := AuditAction.create, resource := AuditResource.issue,
          resourceId := none, user := none,
          input := [("summary", Json.str "Test")],
          result := AuditResult.dryRun, error := none } initialAuditState ∈
      (handleIssuesCreate "T0" true false [("summary", Json.str "Test")]
        (CreateOutcome.created "PROJ-1") initialAuditState).1.sessionLog) ∧
    (fullEntryOf "T0"
        { action := AuditAction.create, resource := AuditResource.issue,
          resourceId := none, user := none,
          input := [("summary", Json.str "Test")],
          result := AuditResult.dryRun, error := none } initialAuditState ∈
        initialAuditState.sessionLog ∨
      (fullEntryOf "T0"
        { action := AuditAction.create, resource := AuditResource.issue,
          resourceId := none, user := none,
          input := [("summary", Json.str "Test")],
          result := AuditResult.dryRun, error := none } initialAuditState).dryRun =
        initialAuditState.dryRunMode) := by
  have hmem : fullEntryOf "T0"
      { action := AuditAction.create, resource := AuditResource.issue,
        resourceId := none, user := none,
        input := [("summary", Json.str "Test")],
        result := AuditResult.dryRun, error := none } initialAuditState ∈
      (handleIssuesCreate "T0" true false [("summary", Json.str "Test")]
        (CreateOutcome.created "PROJ-1") initialAuditState).1.sessionLog := by
    simp [handleIssuesCreate, isDryRunMode, initialAuditState, defaultConfig,
      validateConfirmation, requiresConfirmation, logAudit, fullEntryOf]
  exact ⟨hmem,
    (dryRun_flag_global_only "T0"
        { action := AuditAction.create, resource := AuditResource.issue,
          resourceId := none, user := none,
          input := [("summary", Json.str "Test")],
          result := AuditResult.dryRun, error := none } initialAuditState).2
      true false [("summary", Json.str "Test")] (CreateOutcome.created "PROJ-1") _ hmem⟩

/-- Refill preserves the token-bucket invariant, stamps the new timestamp,
and never decreases the token count when time moves forward. -/
theorem refill_preserves_inv (C W : ℚ) (rl : RateLimiter) (now : ℚ)
    (hW : 0 < W) (hC : 0 ≤ C) (hInv : RLInv C W rl)
    (hnow : rl.lastRefill ≤ now) :
    RLInv C W (rl.refill now) ∧ (rl.refill now).lastRefill = now ∧
    rl.tokens ≤ (rl.refill now).tokens := by
  obtain ⟨hm, hw, h0, hc⟩ := hInv
  have hadd : 0 ≤ (now - rl.lastRefill) / rl.windowMs * rl.maxRequests := by
    apply mul_nonneg
    · apply div_nonneg (by linarith)
      rw [hw]
      exact le_of_lt hW
    · rw [hm]; exact hC
  refine ⟨⟨?_, ?_, ?_, ?_⟩, rfl, ?_⟩
  · simpa [RateLimiter.refill] using hm
  · simpa [RateLimiter.refill] using hw
  · simp only [RateLimiter.refill]
    exact le_min (hm ▸ hC) (by linarith)
  · simp only [RateLimiter.refill]
    exact hm ▸ min_le_left _ _
  · simp only [RateLimiter.refill]
    exact le_min (by linarith [hm ▸ hc]) (by linarith)

/-- Every limiter operation preserves the invariant and leaves the refill
timestamp at the call time. -/
theorem applyOp_preserves_inv (C W : ℚ) (rl : RateLimiter) (op : RLOp) (now : ℚ)
    (hW : 0 < W) (hC : 0 ≤ C) (hInv : RLInv C W rl)
    (hnow : rl.lastRefill ≤ now) :
    RLInv C W (rl.applyOp op now) ∧ (rl.applyOp op now).lastRefill = now := by
  obtain ⟨hr, hlast, _⟩ := refill_preserves_inv C W rl now hW hC hInv hnow
  obtain ⟨hm, hw, h0, hc⟩ := hr
  cases op with
  | acq =>
      by_cases h : (rl.refill now).tokens < 1
      · simp only [RateLimiter.applyOp, RateLimiter.acquire, h, if_pos]
        exact ⟨⟨hm, hw, h0, hc⟩, hlast⟩
      · simp only [RateLimiter.applyOp, RateLimiter.acquire, h, if_neg, not_false_iff]
        push_neg at h
        refine ⟨⟨hm, hw, ?_, ?_⟩, hlast⟩
        · show 0 ≤ (rl.refill now).tokens - 1
          linarith
        · show (rl.refill now).tokens - 1 ≤ C
          linarith
  | canAcq => exact ⟨⟨hm, hw, h0, hc⟩, hlast⟩
  | remaining => exact ⟨⟨hm, hw, h0, hc⟩, hlast⟩
  | timeUntilNext =>
      by_cases h : 1 ≤ (rl.refill now).tokens
      · simp only [RateLimiter.applyOp, RateLimiter.getTimeUntilNextToken, h, if_pos]
        exact ⟨⟨hm, hw, h0, hc⟩, hlast⟩
      · simp only [RateLimiter.applyOp, RateLimiter.getTimeUntilNextToken, h, if_neg,
          not_false_iff]
        exact ⟨⟨hm, hw, h0, hc⟩, hlast⟩

/-- The invariant is preserved along any trace with nondecreasing times. -/
theorem runOps_preserves_inv (C W : ℚ) (hW : 0 < W) (hC : 0 ≤ C)
    (ops : List (RLOp × ℚ)) :
    ∀ rl : RateLimiter, RLInv C W rl → TimesMono rl.lastRefill ops →
      RLInv C W (rl.runOps ops) := by
  induction ops with
  | nil =>
      intro rl hInv _
      simpa [RateLimiter.runOps] using hInv
  | cons p rest ih =>
      obtain ⟨op, now⟩ := p
      intro rl hInv hmono
      obtain ⟨h1, h2⟩ := hmono
      obtain ⟨hstep, hlast⟩ := applyOp_preserves_inv C W rl op now hW hC hInv h1
      have := ih (rl.applyOp op now) hstep (by rw [hlast]; exact h2)
      simpa [RateLimiter.runOps] using this

/-- C7: token-bucket state invariant.  Starting from construction with
capacity `C ≥ 0` and window `W > 0`, every trace of operations at
nondecreasing times keeps `0 ≤ tokens ≤ C`; refill never decreases the
token count when time moves forward and follows the linear formula with
the capacity cap; and a successful `acquire` decreases the (refilled)
token count by exactly 1. -/
theorem rate_limiter_invariant (C W t0 : ℚ) (hC : 0 ≤ C) (hW : 0 < W)
    (ops : List (RLOp × ℚ)) (hmono : TimesMono t0 ops) :
    (0 ≤ ((RateLimiter.init C W t0).runOps ops).tokens ∧
      ((RateLimiter.init C W t0).runOps ops).tokens ≤ C) ∧
    (∀ rl : RateLimiter, RLInv C W rl → ∀ now : ℚ, rl.lastRefill ≤ now →
      rl.tokens ≤ (rl.refill now).tokens) ∧
    (∀ (rl : RateLimiter) (now : ℚ),
      (rl.acquire now).2 = AcquireOutcome.success →
      (rl.acquire now).1.tokens = (rl.refill now).tokens - 1) ∧
    (∀ (rl : RateLimiter) (now : ℚ),
      (rl.refill now).tokens =
        min rl.maxRequests
          (rl.tokens + (now - rl.lastRefill) / rl.windowMs * rl.maxRequests)) := by
  refine ⟨?_, ?_, ?_, ?_⟩
  · have hInit : RLInv C W (RateLimiter.init C W t0) :=
      ⟨rfl, rfl, hC, le_refl C⟩
    have := runOps_preserves_inv C W hW hC ops (RateLimiter.init C W t0) hInit hmono
    exact ⟨this.2.2.1, this.2.2.2⟩
  · intro rl hInv now hnow
    exact (refill_preserves_inv C W rl now hW hC hInv hnow).2.2
  · intro rl now hsucc
    by_cases h : (rl.refill now).tokens < 1
    · simp only [RateLimiter.acquire, h, if_pos] at hsucc
      exact absurd hsucc (by simp)
    · simp only [RateLimiter.acquire, h, if_neg, not_false_iff]
  · intro rl now
    simp [RateLimiter.refill]

/-- C7 witness: the invariant applied to a concrete two-step trace on a
capacity-2, window-1000 limiter. -/
theorem rate_limiter_invariant_witness :
    (0 ≤ (2:ℚ) ∧ 0 < (1000:ℚ) ∧
      TimesMono (0:ℚ) [(RLOp.acq, (0:ℚ)), (RLOp.canAcq, (100:ℚ))]) ∧
    (0 ≤ ((RateLimiter.init 2 1000 0).runOps
        [(RLOp.acq, 0), (RLOp.canAcq, 100)]).tokens ∧
      ((RateLimiter.init 2 1000 0).runOps
        [(RLOp.acq, 0), (RLOp.canAcq, 100)]).tokens ≤ 2) := by
  have hmono : TimesMono (0:ℚ) [(RLOp.acq, (0:ℚ)), (RLOp.canAcq, (100:ℚ))] := by
    refine ⟨le_refl 0, by norm_num, trivial⟩
  exact ⟨⟨by norm_num, by norm_num, hmono⟩,
    (rate_limiter_invariant 2 1000 0 (by norm_num) (by norm_num)
      [(RLOp.acq, 0), (RLOp.canAcq, 100)] hmono).1⟩

/-- C5: `acquire()` first refills by `tokensToAdd = (elapsed / W) * C`
capped so tokens never exceed the capacity, stamping the refill timestamp;
then, if the refilled count is below 1, it fails with a rate-limit outcome
carrying `retryAfter = ceil(((1 - tokens) / C) * W)`; otherwise it
decrements the count by exactly 1 and succeeds.  On a capacity-1,
window-1000 limiter whose refilled count lies in `[0, 1)` (in particular
at 0 remaining tokens), the reported `retryAfter` lies in `(0, 1000]`. -/
theorem acquire_refill_then_decrement (rl : RateLimiter) (now : ℚ) :
    ((rl.refill now).tokens =
        min rl.maxRequests
          (rl.tokens + (now - rl.lastRefill) / rl.windowMs * rl.maxRequests) ∧
      (rl.refill now).lastRefill = now ∧
      (rl.refill now).tokens ≤ rl.maxRequests) ∧
    ((rl.refill now).tokens < 1 →
      rl.acquire now =
        (rl.refill now,
          AcquireOutcome.rateLimited
            ⌈(1 - (rl.refill now).tokens) / rl.maxRequests * rl.windowMs⌉)) ∧
    (1 ≤ (rl.refill now).tokens →
      (rl.acquire now).2 = AcquireOutcome.success ∧
      (rl.acquire now).1.tokens = (rl.refill now).tokens - 1 ∧
      (rl.acquire now).1.lastRefill = now) ∧
    (∀ (rl1 : RateLimiter) (now1 : ℚ), rl1.maxRequests = 1 → rl1.windowMs = 1000 →
      0 ≤ (rl1.refill now1).tokens → (rl1.refill now1).tokens < 1 →
      ∃ ra : ℤ, (rl1.acquire now1).2 = AcquireOutcome.rateLimited ra ∧
        0 < ra ∧ ra ≤ 1000) := by
  refine ⟨⟨?_, rfl, ?_⟩, ?_, ?_, ?_⟩
  · simp [RateLimiter.refill]
  · simp only [RateLimiter.refill]
    exact min_le_left _ _
  · intro h
    simp only [RateLimiter.acquire, h, if_pos]
    rfl
  · intro h
    have h' : ¬(rl.refill now).tokens < 1 := not_lt.mpr h
    have hstep : rl.acquire now =
        ({ rl.refill now with tokens := (rl.refill now).tokens - 1 },
          AcquireOutcome.success) := by
      simp only [RateLimiter.acquire, h', if_neg, not_false_iff]
    refine ⟨?_, ?_, ?_⟩
    · rw [hstep]
    · rw [hstep]
    · rw [hstep]
      simp [RateLimiter.refill]
  · intro rl1 now1 hm hw h0 h1
    have h' : (rl1.refill now1).tokens < 1 := h1
    refine ⟨⌈(1 - (rl1.refill now1).tokens) / rl1.maxRequests * rl1.windowMs⌉, ?_, ?_, ?_⟩
    · simp only [RateLimiter.acquire, h', if_pos]
      rfl
    · apply Int.ceil_pos.mpr
      rw [hm, hw]
      have : 0 < 1 - (rl1.refill now1).tokens := by linarith
      positivity
    · apply Int.ceil_le.mpr
      rw [hm, hw]
      push_cast
      nlinarith

/-- C5 witness: the acquire characterization applied on a drained
capacity-1, window-1000 limiter, discharging the interval hypotheses. -/
theorem acquire_refill_then_decrement_witness :
    ((((RateLimiter.init 1 1000 0).acquire 0).1.refill 0).tokens < 1) ∧
    ∃ ra : ℤ,
      (((RateLimiter.init 1 1000 0).acquire 0).1.acquire 0).2 =
        AcquireOutcome.rateLimited ra ∧ 0 < ra ∧ ra ≤ 1000 := by
  constructor
  · norm_num [RateLimiter.init, RateLimiter.acquire, RateLimiter.refill]
  · exact (acquire_refill_then_decrement ((RateLimiter.init 1 1000 0).acquire 0).1 0).2.2.2
      ((RateLimiter.init 1 1000 0).acquire 0).1 0
      (by norm_num [RateLimiter.init, RateLimiter.acquire, RateLimiter.refill])
      (by norm_num [RateLimiter.init, RateLimiter.acquire, RateLimiter.refill])
      (by norm_num [RateLimiter.init, RateLimiter.acquire, RateLimiter.refill])
      (by norm_num [RateLimiter.init, RateLimiter.acquire, RateLimiter.refill])

/-- C8: refill linearity and exhaustion on a maxRequests-2, windowMs-1000
limiter: two immediate acquires succeed, a third immediate acquire throws
a rate-limit error (with retryAfter 500 for the half-token deficit);
after waiting 500 ms exactly one further acquire succeeds, and the next
immediate acquire throws again. -/
theorem refill_linearity_scenario :
    ((RateLimiter.init 2 1000 0).acquire 0).2 = AcquireOutcome.success ∧
    (((RateLimiter.init 2 1000 0).acquire 0).1.acquire 0).2 =
      AcquireOutcome.success ∧
    ((((RateLimiter.init 2 1000 0).acquire 0).1.acquire 0).1.acquire 0).2 =
      AcquireOutcome.rateLimited 500 ∧
    (((((RateLimiter.init 2 1000 0).acquire 0).1.acquire 0).1.acquire 0).1.acquire 500).2 =
      AcquireOutcome.success ∧
    ((((((RateLimiter.init 2 1000 0).acquire 0).1.acquire 0).1.acquire 0).1.acquire
        500).1.acquire 500).2 =
      AcquireOutcome.rateLimited 500 := by
  refine ⟨?_, ?_, ?_, ?_, ?_⟩ <;>
    norm_num [RateLimiter.init, RateLimiter.acquire, RateLimiter.refill]

/-- C6: a 404 response with body containing
`errorMessages: ["Issue does not exist"]` makes the client throw a
`JiraApiError` whose message is exactly "Issue does not exist" and whose
status code is 404, after a single fetch and with no sleeps (zero
retries); a 401 response throws an `AuthenticationError` after a single
fetch; and `extractMessage` follows the precedence joined `errorMessages`
array, then `message` field, then `error` field, then the HTTP status
text. -/
theorem error_extraction_and_404 (sched1 sched2 : Nat → AttemptResult)
    (h404 : sched1 0 = AttemptResult.response resp404)
    (h401 : sched2 0 = AttemptResult.response resp401) :
    (runRequest sched1).outcome = RequestOutcome.thrown (some
      (JsError.jiraApiError "Issue does not exist" 404 (some resp404.body))) ∧
    (runRequest sched1).fetches = 1 ∧
    (runRequest sched1).sleeps = [] ∧
    (runRequest sched2).outcome = RequestOutcome.thrown (some
      (JsError.authenticationError
        "Invalid Jira credentials. Please check your email and API token.")) ∧
    (runRequest sched2).fetches = 1 ∧
    (∀ (xs : List Json) (rest : List (String × Json)) (fb : String),
      extractMessage (Json.obj (("errorMessages", Json.arr xs) :: rest)) fb =
        jsJoinList ", " xs) ∧
    (∀ (m e2 fb : String),
      extractMessage (Json.obj [("message", Json.str m), ("error", Json.str e2)]) fb =
        m) ∧
    (∀ (e2 fb : String),
      extractMessage (Json.obj [("error", Json.str e2)]) fb = e2) ∧
    (∀ fb : String, extractMessage (Json.obj []) fb = fb) ∧
    (∀ fb : String, extractMessage Json.null fb = fb) := by
  refine ⟨?_, ?_, ?_, ?_, ?_, ?_, ?_, ?_, ?_, ?_⟩
  · simp [runRequest, runRequestAux, h404, resp404, catchStep, isNonRetryable,
      fromResponse, extractMessage, lookupField, jsJoinList, jsJoinElem]
  · simp [runRequest, runRequestAux, h404, resp404, catchStep, isNonRetryable,
      fromResponse, extractMessage, lookupField, jsJoinList, jsJoinElem]
  · simp [runRequest, runRequestAux, h404, resp404, catchStep, isNonRetryable,
      fromResponse, extractMessage, lookupField, jsJoinList, jsJoinElem]
  · simp [runRequest, runRequestAux, h401, resp401, catchStep, isNonRetryable]
  · simp [runRequest, runRequestAux, h401, resp401, catchStep, isNonRetryable]
  · intro xs rest fb
    simp [extractMessage, lookupField]
  · intro m e2 fb
    simp [extractMessage, lookupField]
  · intro e2 fb
    simp [extractMessage, lookupField]
  · intro fb
    simp [extractMessage, lookupField]
  · intro fb
    simp [extractMessage]

/-- C6 witness: the theorem applied to the constant schedules delivering
the concrete 404 and 401 responses. -/
theorem error_extraction_and_404_witness :
    (runRequest (fun _ => AttemptResult.response resp404)).outcome =
      RequestOutcome.thrown (some
        (JsError.jiraApiError "Issue does not exist" 404 (some resp404.body))) ∧
    (runRequest (fun _ => AttemptResult.response resp404)).fetches = 1 ∧
    (runRequest (fun _ => AttemptResult.response resp401)).fetches = 1 :=
  ⟨(error_extraction_and_404 (fun _ => AttemptResult.response resp404)
      (fun _ => AttemptResult.response resp401) rfl rfl).1,
   (error_extraction_and_404 (fun _ => AttemptResult.response resp404)
      (fun _ => AttemptResult.response resp401) rfl rfl).2.1,
   (error_extraction_and_404 (fun _ => AttemptResult.response resp404)
      (fun _ => AttemptResult.response resp401) rfl rfl).2.2.2.2.1⟩

/-- C10: when all three loop iterations receive a 429 response, the
`continue` path never assigns `lastError`, the `for` loop update still
increments `attempt`, the loop exits after 3 fetches, and the final
`throw lastError` throws the initial `null` (modelled as `thrown none`) —
not an `Error` object and with no retry-after information. -/
theorem throttled_thrice_throws_null (sched : Nat → AttemptResult)
    (r0 r1 r2 : HttpResponse)
    (h0 : sched 0 = AttemptResult.response r0) (hs0 : r0.status = 429)
    (h1 : sched 1 = AttemptResult.response r1) (hs1 : r1.status = 429)
    (h2 : sched 2 = AttemptResult.response r2) (hs2 : r2.status = 429) :
    (runRequest sched).outcome = RequestOutcome.thrown none ∧
    (runRequest sched).fetches = 3 := by
  constructor <;>
    simp [runRequest, runRequestAux, h0, h1, h2, hs0, hs1, hs2]

/-- C10 witness: the theorem applied to the constant 429 schedule. -/
theorem throttled_thrice_throws_null_witness :
    (runRequest (fun _ => AttemptResult.response resp429)).outcome =
      RequestOutcome.thrown none ∧
    (runRequest (fun _ => AttemptResult.response resp429)).fetches = 3 :=
  throttled_thrice_throws_null (fun _ => AttemptResult.response resp429)
    resp429 resp429 resp429 rfl rfl rfl rfl rfl rfl

/-- C3 counterexample: on a schedule delivering three 429 responses and
then a 200, the claimed unbounded 429 loop would reach the 200 and
succeed; the actual loop consumes one of the 3 attempts per 429
(`continue` still runs the `for` update), exits after exactly 3 fetches,
and throws the null `lastError`, never reaching the 200. -/
theorem unbounded_429_retry_counterexample :
    (runRequest sched429x3ThenOk).outcome = RequestOutcome.thrown none ∧
    (runRequest sched429x3ThenOk).fetches = 3 ∧
    sched429x3ThenOk 3 = AttemptResult.response respOk ∧
    respOk.status = 200 ∧
    (∀ data : Json,
      (runRequest sched429x3ThenOk).outcome ≠ RequestOutcome.success data) := by
  have hout : (runRequest sched429x3ThenOk).outcome = RequestOutcome.thrown none := by
    simp [runRequest, runRequestAux, sched429x3ThenOk, resp429]
  refine ⟨hout, ?_, rfl, rfl, ?_⟩
  · simp [runRequest, runRequestAux, sched429x3ThenOk, resp429]
  · intro data hsucc
    rw [hout] at hsucc
    simp at hsucc

/-- C3 amended: an HTTP 429 response makes the client read `Retry-After`
(seconds, defaulting to 60 when the header is absent), sleep that many
seconds, and retry — but the `continue` statement still runs the `for`
update, so the 429 path consumes an attempt from the same 3-attempt
budget: the remainder of the call runs with one less iteration available,
and three consecutive 429 responses exhaust the budget and make the call
throw its null `lastError`. -/
theorem rate_limited_retry_consumes_attempt (sched schedA : Nat → AttemptResult)
    (r r0 r1 r2 : HttpResponse) (secs : Nat)
    (h0 : sched 0 = AttemptResult.response r) (hs : r.status = 429)
    (hra : retryAfterSeconds r.retryAfterHeader = some secs)
    (hA0 : schedA 0 = AttemptResult.response r0) (hAs0 : r0.status = 429)
    (hA1 : schedA 1 = AttemptResult.response r1) (hAs1 : r1.status = 429)
    (hA2 : schedA 2 = AttemptResult.response r2) (hAs2 : r2.status = 429) :
    runRequest sched =
      { outcome := (runRequestAux 3 1000 sched 2 none).outcome,
        fetches := (runRequestAux 3 1000 sched 2 none).fetches + 1,
        sleeps := secs * 1000 :: (runRequestAux 3 1000 sched 2 none).sleeps } ∧
    (r.retryAfterHeader = none → secs = 60) ∧
    (runRequest schedA).outcome = RequestOutcome.thrown none ∧
    (runRequest schedA).fetches = 3 := by
  refine ⟨?_, ?_, ?_, ?_⟩
  · have hunf : runRequestAux 3 1000 sched 3 none =
        { outcome := (runRequestAux 3 1000 sched 2 none).outcome,
          fetches := (runRequestAux 3 1000 sched 2 none).fetches + 1,
          sleeps := ((retryAfterSeconds r.retryAfterHeader).getD 0) * 1000 ::
            (runRequestAux 3 1000 sched 2 none).sleeps } := by
      conv_lhs => rw [runRequestAux]
      simp [h0, hs]
    rw [runRequest, hunf, hra]
    simp
  · intro hnone
    rw [hnone] at hra
    have h60 : retryAfterSeconds none = some 60 := rfl
    rw [h60] at hra
    exact (Option.some.inj hra).symm
  · simp [runRequest, runRequestAux, hA0, hA1, hA2, hAs0, hAs1, hAs2]
  · simp [runRequest, runRequestAux, hA0, hA1, hA2, hAs0, hAs1, hAs2]

/-- C3 witness: the amended statement applied to the 7-second 429 response
followed by a success, and to the constant 429 schedule. -/
theorem rate_limited_retry_consumes_attempt_witness :
    runRequest (fun n => if n = 0 then AttemptResult.response resp429
        else AttemptResult.response respOk) =
      { outcome := (runRequestAux 3 1000 (fun n => if n = 0 then
            AttemptResult.response resp429 else AttemptResult.response respOk)
          2 none).outcome,
        fetches := (runRequestAux 3 1000 (fun n => if n = 0 then
            AttemptResult.response resp429 else AttemptResult.response respOk)
          2 none).fetches + 1,
        sleeps := 7 * 1000 :: (runRequestAux 3 1000 (fun n => if n = 0 then
            AttemptResult.response resp429 else AttemptResult.response respOk)
          2 none).sleeps } ∧
    (runRequest (fun _ => AttemptResult.response resp429)).fetches = 3 := by
  have h := rate_limited_retry_consumes_attempt
    (fun n => if n = 0 then AttemptResult.response resp429
      else AttemptResult.response respOk)
    (fun _ => AttemptResult.response resp429)
    resp429 resp429 resp429 resp429 7 rfl rfl rfl rfl rfl rfl rfl rfl rfl
  exact ⟨h.1, h.2.2.2⟩

/-- C9: session log isolation.  At the value level, `clearSessionLog`
followed by `getSessionLog` yields an empty list while the file sink and
configuration are untouched.  At the reference level (JS arrays as heap
cells), `getSessionLog` returns a fresh cell distinct from the internal
`sessionLog` reference holding a copy of its contents; overwriting the
returned cell with anything leaves the internal cell unchanged, and a
second `getSessionLog` still returns exactly the entries accumulated via
`logAudit` pushes; `clearSessionLog` then `getSessionLog` yields an empty
copy; and a push through the internal reference appends exactly one
entry. -/
theorem session_log_isolation (s : AuditState) (h : SessionHeap)
    (href : h.sessionRef < h.cells.length) :
    getSessionLogEntries (clearSessionLogState s) = [] ∧
    (clearSessionLogState s).fileLog = s.fileLog ∧
    (clearSessionLogState s).config = s.config ∧
    (h.getSessionLog).2 ≠ h.sessionRef ∧
    (h.getSessionLog).1.read (h.getSessionLog).2 = h.read h.sessionRef ∧
    (∀ xs : List AuditEntry,
      ((h.getSessionLog).1.write (h.getSessionLog).2 xs).read h.sessionRef =
        h.read h.sessionRef) ∧
    (∀ xs : List AuditEntry,
      ((((h.getSessionLog).1.write (h.getSessionLog).2 xs).getSessionLog).1.read
          (((h.getSessionLog).1.write (h.getSessionLog).2 xs).getSessionLog).2) =
        h.read h.sessionRef) ∧
    ((h.clearSessionLog.getSessionLog).1.read (h.clearSessionLog.getSessionLog).2 = []) ∧
    (∀ e : AuditEntry,
      (h.pushEntry e).read h.sessionRef = h.read h.sessionRef ++ [e]) := by
  have hne : h.cells.length ≠ h.sessionRef := Nat.ne_of_gt href
  refine ⟨rfl, rfl, rfl, ?_, ?_, ?_, ?_, ?_, ?_⟩
  · exact hne
  · simp [SessionHeap.getSessionLog, SessionHeap.read, List.getD_eq_getElem?_getD]
  · intro xs
    simp only [SessionHeap.getSessionLog, SessionHeap.write, SessionHeap.read,
      List.getD_eq_getElem?_getD]
    rw [List.getElem?_set_ne (Ne.symm (Nat.ne_of_lt href))]
    rw [List.getElem?_append_left href]
  · intro xs
    simp only [SessionHeap.getSessionLog, SessionHeap.write, SessionHeap.read,
      List.getD_eq_getElem?_getD]
    rw [List.getElem?_concat_length]
    simp only [Option.getD_some]
    rw [List.getElem?_set_ne (Ne.symm (Nat.ne_of_lt href))]
    rw [List.getElem?_append_left href]
  · simp only [SessionHeap.clearSessionLog, SessionHeap.write, SessionHeap.read,
      SessionHeap.getSessionLog, List.getD_eq_getElem?_getD]
    rw [List.getElem?_concat_length]
    simp only [Option.getD_some]
    rw [List.getElem?_set_self (by simpa using href)]
    simp
  · intro e
    simp only [SessionHeap.pushEntry, SessionHeap.write, SessionHeap.read,
      List.getD_eq_getElem?_getD]
    rw [List.getElem?_set_self href]
    simp

/-- C9 witness: isolation applied to a concrete one-cell heap holding one
previously logged entry. -/
theorem session_log_isolation_witness :
    exampleHeap.sessionRef < exampleHeap.cells.length ∧
    (∀ xs : List AuditEntry,
      ((exampleHeap.getSessionLog).1.write (exampleHeap.getSessionLog).2 xs).read
          exampleHeap.sessionRef =
        exampleHeap.read exampleHeap.sessionRef) := by
  refine ⟨by norm_num [exampleHeap], ?_⟩
  exact (session_log_isolation initialAuditState exampleHeap
    (by norm_num [exampleHeap])).2.2.2.2.2.1
